import Mathlib

/-
Shallow embedding of the foreground-object extraction pipeline in
src/object_extract.py, together with the theorems settling the claims
about it.

Modelling conventions:
  - pixel coordinates and box fields are Int (Python ints);
  - floating point scores and ratios are modelled over the rationals
    (the source literal 0.6 is written 3 / 5, and 0.0025 is 1 / 400);
  - a contour is the list of integer points returned by cv2.findContours;
    cv2.contourArea is the absolute shoelace area and cv2.boundingRect is
    the tight axis-aligned bounding box with inclusive pixel widths
    (w = maxx - minx + 1), matching the OpenCV documentation;
  - the opaque raster stages (grayscale, blur, Canny, dilate,
    findContours) are abstracted into one deterministic function
    contoursOf from images to contour lists, since every claim is about
    what the code does with the resulting contours;
  - file-system effects are explicit parameters and results: decoding
    yields an Option image, each imwrite call has a Bool success flag,
    and the region-scoped extractor also records its file events so the
    temp-file discipline can be stated.
-/

namespace ObjectExtract

/-- An axis-aligned box {x, y, w, h}, the shape of the meta dict returned
by both entry points and of cv2.boundingRect results. -/
structure Box where
  x : Int
  y : Int
  w : Int
  h : Int
  deriving DecidableEq, Repr

/-- A contour as returned by cv2.findContours: a closed chain of integer
pixel coordinates. -/
abbrev Contour := List (Int × Int)

/-- A decoded color image: dimensions plus a BGR pixel function. -/
structure BGRImage where
  W : Int
  H : Int
  px : Int → Int → Nat × Nat × Nat

/-- A four-channel image: BGR pixel plus alpha. -/
structure RGBAImage where
  W : Int
  H : Int
  px : Int → Int → (Nat × Nat × Nat) × Nat

/-- Cross product term of the shoelace formula. -/
def cross2 (p q : Int × Int) : Int := p.1 * q.2 - q.1 * p.2

/-- Shoelace sum over the edges of the closed polygon, with the first
point p0 closing the chain. -/
def shoelaceFrom (p0 : Int × Int) : List (Int × Int) → Int
  | [] => 0
  | [p] => cross2 p p0
  | p :: q :: rest => cross2 p q + shoelaceFrom p0 (q :: rest)

/-- Oriented shoelace sum of a contour. -/
def shoelace : Contour → Int
  | [] => 0
  | p :: ps => shoelaceFrom p (p :: ps)

/-- cv2.contourArea: absolute enclosed area of the closed polygon,
half the absolute shoelace sum. -/
def contourArea (c : Contour) : ℚ := ((shoelace c).natAbs : ℚ) / 2

/-- cv2.boundingRect: tight bounding box of the contour points, with
inclusive pixel extents (w = maxx - minx + 1).  The source never calls it
on an empty contour; the empty case is given a zero box. -/
def boundingRect : Contour → Box
  | [] => ⟨0, 0, 0, 0⟩
  | p :: ps =>
      let mnx := ps.foldl (fun a q => min a q.1) p.1
      let mny := ps.foldl (fun a q => min a q.2) p.2
      let mxx := ps.foldl (fun a q => max a q.1) p.1
      let mxy := ps.foldl (fun a q => max a q.2) p.2
      ⟨mnx, mny, mxx - mnx + 1, mxy - mny + 1⟩

/-- Translation of _touches_border (src/object_extract.py line 38): the
rect is within pad pixels of some image border.  The source default pad
is 2 and the only call site uses that default. -/
def touches_border (r : Box) (w h pad : Int) : Bool :=
  decide (r.x ≤ pad) || decide (r.y ≤ pad) ||
    decide (r.x + r.w ≥ w - pad) || decide (r.y + r.h ≥ h - pad)

/-- Loop body of _best_external_contour (src/object_extract.py lines
50-60): skip non-positive areas, score by area, multiply the score by
0.6 when the bounding box touches the border, keep the strictly best
score (first wins on ties). -/
def bestStep (w h : Int) (acc : Option Contour × ℚ) (c : Contour) :
    Option Contour × ℚ :=
  let area := contourArea c
  if area ≤ 0 then acc
  else
    let r := boundingRect c
    let score := if touches_border r w h 2 then area * (3 / 5) else area
    if acc.2 < score then (some c, score) else acc

/-- Translation of _best_external_contour (src/object_extract.py lines
43-61), folding bestStep over the contour list starting from
(best = None, best_score = -1.0). -/
def best_external_contour (contours : List Contour) (w h : Int) :
    Option Contour :=
  (contours.foldl (bestStep w h) (none, -1)).1

/-- Score a contour the way the selector loop does; used to state the
selector theorems. -/
def scoreOf (w h : Int) (c : Contour) : ℚ :=
  if touches_border (boundingRect c) w h 2 then contourArea c * (3 / 5)
  else contourArea c

/-- Normalization of one numpy slice endpoint i against length n
(negative indices count from the end, then both are clamped). -/
def npClamp (n i : Int) : Int := if i < 0 then max 0 (n + i) else min n i

/-- Length of the numpy basic slice a:b over an axis of length n. -/
def npSliceLen (n a b : Int) : Int := max 0 (npClamp n b - npClamp n a)

/-- Core of extract_main_object_to_png (src/object_extract.py lines
102-151), from the point where the contour list is in hand: check for an
empty list, select the best contour, apply the minimum-area-ratio gate on
its bounding-rect area, crop (an empty crop is an error), and attempt the
write.  W and H are the decoded image dimensions, min_area the
min_area_ratio parameter and writeOk the cv2.imwrite outcome.  The error
strings are the RuntimeError messages of the source. -/
def extract_main_object_core (W H : Int) (contours : List Contour)
    (min_area : ℚ) (writeOk : Bool) : Except String Box :=
  if contours.isEmpty then Except.error "No contours found"
  else
    match best_external_contour contours W H with
    | none => Except.error "No suitable contour found"
    | some best =>
      let r := boundingRect best
      if ((r.w * r.h : Int) : ℚ) < min_area * ((W * H : Int) : ℚ) then
        Except.error "Detected object is too small; likely noise"
      else if npSliceLen H r.y (r.y + r.h) = 0 ∨ npSliceLen W r.x (r.x + r.w) = 0 then
        Except.error "Empty crop after contour extraction"
      else if writeOk = false then
        Except.error "Failed to write sprite PNG"
      else Except.ok ⟨r.x, r.y, r.w, r.h⟩

/-- Whole-image entry point extract_main_object_to_png (src lines
64-151): the os.path.isfile guard, the imread decode, then the core.
contoursOf abstracts the deterministic raster stages (grayscale, blur,
auto Canny, dilate, findContours) applied to the decoded image. -/
def extract_main_object_model (fileExists : Bool) (decoded : Option BGRImage)
    (contoursOf : BGRImage → List Contour) (min_area : ℚ) (writeOk : Bool) :
    Except String Box :=
  if fileExists = false then Except.error "FileNotFoundError"
  else
    match decoded with
    | none => Except.error "Failed to read image"
    | some bgr => extract_main_object_core bgr.W bgr.H (contoursOf bgr) min_area writeOk

/-- Sub-rectangle view bgr[y0:y1, x0:x1] of an image (src line 193). -/
def cropImage (img : BGRImage) (x0 y0 x1 y1 : Int) : BGRImage :=
  { W := x1 - x0, H := y1 - y0, px := fun i j => img.px (x0 + i) (y0 + j) }

/-- Fallback sprite built at src lines 218-219: cvtColor BGR2BGRA on the
raw crop followed by rgba[:, :, 3] = 255, i.e. the crop pixels with a
fully opaque alpha channel. -/
def component_fallback_rgba (crop : BGRImage) : RGBAImage :=
  { W := crop.W, H := crop.H, px := fun i j => (crop.px i j, 255) }

/-- File-system events of one extract_component_from_bbox call that are
relevant to the temp-file discipline. -/
inductive FSEvent where
  | mkstempCreate
  | writeTempAttempt
  | writeFallbackAttempt
  | removeTempAttempt
  deriving DecidableEq, Repr

/-- Observable outcome of one extract_component_from_bbox call: the
returned value or propagated error, the fallback sprite image when the
fallback write path ran, and the file events in order. -/
structure CompRun where
  result : Except String Box
  fallbackWritten : Option RGBAImage
  events : List FSEvent

/-- Translation of extract_component_from_bbox (src/object_extract.py
lines 154-235).  Checks mirror the source order: isfile, bbox dimension
check, imread, clamping, degenerate-box check; then the temp working
image is created and the whole-image pipeline is run on the crop (the
temp PNG round-trip is lossless, so the inner call sees exactly the
crop); on any inner RuntimeError the raw-crop fallback writes
component_fallback_rgba, which itself may fail.  The finally block
removes the temp file on every path, which the event list records. -/
def extract_component_run (fileExists : Bool) (decoded : Option BGRImage)
    (contoursOf : BGRImage → List Contour) (innerWriteOk fallbackWriteOk : Bool)
    (bx b_y bw bh : Int) (min_area : ℚ) : CompRun :=
  if fileExists = false then ⟨Except.error "FileNotFoundError", none, []⟩
  else if bw ≤ 0 ∨ bh ≤ 0 then ⟨Except.error "Invalid bbox dimensions", none, []⟩
  else
    match decoded with
    | none => ⟨Except.error "Failed to read image", none, []⟩
    | some bgr =>
      let x0 := max 0 (min (bgr.W - 1) bx)
      let y0 := max 0 (min (bgr.H - 1) b_y)
      let x1 := max 0 (min bgr.W (x0 + bw))
      let y1 := max 0 (min bgr.H (y0 + bh))
      if x1 ≤ x0 ∨ y1 ≤ y0 then ⟨Except.error "BBox outside image bounds", none, []⟩
      else
        let crop := cropImage bgr x0 y0 x1 y1
        match extract_main_object_core crop.W crop.H (contoursOf crop) min_area innerWriteOk with
        | Except.ok m =>
          ⟨Except.ok ⟨x0 + m.x, y0 + m.y, m.w, m.h⟩, none,
            [FSEvent.mkstempCreate, FSEvent.writeTempAttempt, FSEvent.removeTempAttempt]⟩
        | Except.error _ =>
          let rgba := component_fallback_rgba crop
          if fallbackWriteOk then
            ⟨Except.ok ⟨x0, y0, x1 - x0, y1 - y0⟩, some rgba,
              [FSEvent.mkstempCreate, FSEvent.writeTempAttempt,
                FSEvent.writeFallbackAttempt, FSEvent.removeTempAttempt]⟩
          else
            ⟨Except.error "Failed to write component PNG", some rgba,
              [FSEvent.mkstempCreate, FSEvent.writeTempAttempt,
                FSEvent.writeFallbackAttempt, FSEvent.removeTempAttempt]⟩

/-- Value view of extract_component_from_bbox: return value or error. -/
def extract_component_core (fileExists : Bool) (decoded : Option BGRImage)
    (contoursOf : BGRImage → List Contour) (innerWriteOk fallbackWriteOk : Bool)
    (bx b_y bw bh : Int) (min_area : ℚ) : Except String Box :=
  (extract_component_run fileExists decoded contoursOf innerWriteOk fallbackWriteOk
    bx b_y bw bh min_area).result

/-- Guarantee cv2.findContours gives: every reported contour point is a
pixel coordinate of the analysed image. -/
def InBounds (contoursOf : BGRImage → List Contour) : Prop :=
  ∀ img : BGRImage, ∀ c ∈ contoursOf img, ∀ p ∈ c,
    0 ≤ p.1 ∧ p.1 < img.W ∧ 0 ≤ p.2 ∧ p.2 < img.H

/-! Concrete instances used by the closed witness theorems. -/

/-- Uniform white pixel field. -/
def whitePx : Int → Int → Nat × Nat × Nat := fun _ _ => (255, 255, 255)

/-- A 3 by 3 white canvas. -/
def img3 : BGRImage := ⟨3, 3, whitePx⟩

/-- A 100 by 100 white canvas. -/
def img100 : BGRImage := ⟨100, 100, whitePx⟩

/-- A 200 by 200 white canvas. -/
def img200 : BGRImage := ⟨200, 200, whitePx⟩

/-- Raster stage that finds no contours at all (a blank canvas). -/
def noContoursOf : BGRImage → List Contour := fun _ => []

/-- A 70 by 70 square contour away from the border of a 100 by 100 grid. -/
def sqC : Contour := [(10, 10), (80, 10), (80, 80), (10, 80)]

/-- A tiny 2 by 2 square contour, below the default area gate on a
100 by 100 grid. -/
def tinySq : Contour := [(5, 5), (7, 5), (7, 7), (5, 7)]

/-- A 5 by 5 square contour glued to the left border. -/
def borderSq : Contour := [(0, 5), (5, 5), (5, 10), (0, 10)]

/-- A 5 by 5 square contour away from every border of a 20 by 20 grid,
with the same area as borderSq. -/
def innerSq : Contour := [(5, 5), (10, 5), (10, 10), (5, 10)]

/-- Raster stage reporting the square sqC whenever it fits in the image;
by construction its reports satisfy the findContours guarantee. -/
def guardedContoursOf : BGRImage → List Contour := fun img =>
  [sqC].filter fun c =>
    decide (∀ p ∈ c, 0 ≤ p.1 ∧ p.1 < img.W ∧ 0 ≤ p.2 ∧ p.2 < img.H)

/-! Helper lemmas about the selector fold and the bounding rectangle. -/

lemma contourArea_nonneg (c : Contour) : 0 ≤ contourArea c := by
  unfold contourArea
  positivity

lemma contourArea_nil : contourArea [] = 0 := by
  simp [contourArea, shoelace]

lemma area_pos_ne_nil {c : Contour} (h : 0 < contourArea c) : c ≠ [] := by
  intro hn
  rw [hn, contourArea_nil] at h
  exact lt_irrefl 0 h

lemma scoreOf_pos (w h : Int) (c : Contour) (hc : 0 < contourArea c) :
    0 < scoreOf w h c := by
  unfold scoreOf
  split
  · positivity
  · exact hc

lemma bestStep_eq (w h : Int) (acc : Option Contour × ℚ) (c : Contour) :
    bestStep w h acc c =
      if contourArea c ≤ 0 then acc
      else if acc.2 < scoreOf w h c then (some c, scoreOf w h c) else acc := by
  simp only [bestStep, scoreOf]

lemma foldl_min_le {α : Type} (f : α → Int) (l : List α) (a : Int) :
    List.foldl (fun x q => min x (f q)) a l ≤ a := by
  induction l generalizing a with
  | nil => exact le_refl a
  | cons q l ih => exact le_trans (ih (min a (f q))) (min_le_left a (f q))

lemma le_foldl_min {α : Type} (f : α → Int) (l : List α) (a lb : Int)
    (ha : lb ≤ a) (hl : ∀ q ∈ l, lb ≤ f q) :
    lb ≤ List.foldl (fun x q => min x (f q)) a l := by
  induction l generalizing a with
  | nil => exact ha
  | cons q l ih =>
      refine ih (min a (f q)) (le_min ha (hl q (by simp))) ?_
      intro r hr
      exact hl r (by simp [hr])

lemma le_foldl_max {α : Type} (f : α → Int) (l : List α) (a : Int) :
    a ≤ List.foldl (fun x q => max x (f q)) a l := by
  induction l generalizing a with
  | nil => exact le_refl a
  | cons q l ih => exact le_trans (le_max_left a (f q)) (ih (max a (f q)))

lemma foldl_max_le {α : Type} (f : α → Int) (l : List α) (a ub : Int)
    (ha : a ≤ ub) (hl : ∀ q ∈ l, f q ≤ ub) :
    List.foldl (fun x q => max x (f q)) a l ≤ ub := by
  induction l generalizing a with
  | nil => exact ha
  | cons q l ih =>
      refine ih (max a (f q)) (max_le ha (hl q (by simp))) ?_
      intro r hr
      exact hl r (by simp [hr])

lemma foldl_min_le_foldl_max {α : Type} (f : α → Int) (l : List α) (a b : Int)
    (hab : a ≤ b) :
    List.foldl (fun x q => min x (f q)) a l ≤
      List.foldl (fun x q => max x (f q)) b l := by
  induction l generalizing a b with
  | nil => exact hab
  | cons q l ih =>
      exact ih (min a (f q)) (max b (f q))
        (le_trans (min_le_left a (f q)) (le_trans hab (le_max_left b (f q))))

/-- Bounds for cv2.boundingRect of a nonempty contour whose points all lie
inside the W by H pixel grid. -/
lemma boundingRect_bounds {c : Contour} (W H : Int) (hne : c ≠ [])
    (hin : ∀ p ∈ c, 0 ≤ p.1 ∧ p.1 < W ∧ 0 ≤ p.2 ∧ p.2 < H) :
    0 ≤ (boundingRect c).x ∧ 0 ≤ (boundingRect c).y ∧
      1 ≤ (boundingRect c).w ∧ 1 ≤ (boundingRect c).h ∧
      (boundingRect c).x + (boundingRect c).w ≤ W ∧
      (boundingRect c).y + (boundingRect c).h ≤ H := by
  match c with
  | [] => exact absurd rfl hne
  | p :: ps =>
    have hp := hin p (by simp)
    have hmnx : 0 ≤ List.foldl (fun x q => min x q.1) p.1 ps :=
      le_foldl_min _ ps p.1 0 hp.1 (fun q hq => (hin q (by simp [hq])).1)
    have hmny : 0 ≤ List.foldl (fun x q => min x q.2) p.2 ps :=
      le_foldl_min _ ps p.2 0 hp.2.2.1 (fun q hq => (hin q (by simp [hq])).2.2.1)
    have hmxx : List.foldl (fun x q => max x q.1) p.1 ps ≤ W - 1 :=
      foldl_max_le _ ps p.1 (W - 1) (by omega)
        (fun q hq => by have := (hin q (by simp [hq])).2.1; omega)
    have hmxy : List.foldl (fun x q => max x q.2) p.2 ps ≤ H - 1 :=
      foldl_max_le _ ps p.2 (H - 1) (by omega)
        (fun q hq => by have := (hin q (by simp [hq])).2.2.2; omega)
    have hx : List.foldl (fun x q => min x q.1) p.1 ps ≤
        List.foldl (fun x q => max x q.1) p.1 ps :=
      foldl_min_le_foldl_max _ ps p.1 p.1 (le_refl p.1)
    have hy : List.foldl (fun x q => min x q.2) p.2 ps ≤
        List.foldl (fun x q => max x q.2) p.2 ps :=
      foldl_min_le_foldl_max _ ps p.2 p.2 (le_refl p.2)
    simp only [boundingRect]
    refine ⟨hmnx, hmny, by omega, by omega, by omega, by omega⟩

/-- Invariant of the selector fold: either no contour so far has positive
area and the accumulator is untouched, or the accumulator holds the first
contour attaining the maximum score among the positive-area contours. -/
lemma foldl_best_spec (w h : Int) (l : List Contour) :
    (l.foldl (bestStep w h) (none, -1) = ((none : Option Contour), (-1 : ℚ)) ∧
        ∀ c ∈ l, contourArea c ≤ 0) ∨
    (∃ b l1 l2, l.foldl (bestStep w h) (none, -1) = (some b, scoreOf w h b) ∧
        0 < contourArea b ∧ l = l1 ++ b :: l2 ∧
        (∀ c ∈ l1, 0 < contourArea c → scoreOf w h c < scoreOf w h b) ∧
        (∀ c ∈ l2, 0 < contourArea c → scoreOf w h c ≤ scoreOf w h b)) := by
  induction l using List.reverseRecOn with
  | nil => exact Or.inl ⟨rfl, by simp⟩
  | append_singleton l c ih =>
    rw [List.foldl_append]
    rcases ih with ⟨heq, hall⟩ | ⟨b, l1, l2, heq, hpos, hsplit, hbefore, hafter⟩
    · rw [heq]
      by_cases hc : contourArea c ≤ 0
      · refine Or.inl ⟨?_, ?_⟩
        · simp [bestStep_eq, hc]
        · intro d hd
          rcases List.mem_append.mp hd with hd | hd
          · exact hall d hd
          · simp only [List.mem_singleton] at hd
            exact hd ▸ hc
      · push_neg at hc
        have h1 : (-1 : ℚ) < scoreOf w h c :=
          lt_trans (by norm_num) (scoreOf_pos w h c hc)
        refine Or.inr ⟨c, l, [], ?_, hc, by simp, ?_, by simp⟩
        · simp [bestStep_eq, not_le.mpr hc, h1]
        · intro d hd hdpos
          exact absurd (hall d hd) (not_le.mpr hdpos)
    · rw [heq]
      by_cases hc : contourArea c ≤ 0
      · refine Or.inr ⟨b, l1, l2 ++ [c], ?_, hpos, by simp [hsplit], hbefore, ?_⟩
        · simp [bestStep_eq, hc]
        · intro d hd hdpos
          rcases List.mem_append.mp hd with hd | hd
          · exact hafter d hd hdpos
          · simp only [List.mem_singleton] at hd
            exact absurd hdpos (hd ▸ not_lt.mpr hc)
      · push_neg at hc
        by_cases hcmp : scoreOf w h b < scoreOf w h c
        · refine Or.inr ⟨c, l1 ++ b :: l2, [], ?_, hc, by simp [hsplit], ?_, by simp⟩
          · simp [bestStep_eq, not_le.mpr hc, hcmp]
          · intro d hd hdpos
            rcases List.mem_append.mp hd with hd | hd
            · exact lt_trans (hbefore d hd hdpos) hcmp
            · rcases List.mem_cons.mp hd with hd | hd
              · exact hd ▸ hcmp
              · exact lt_of_le_of_lt (hafter d hd hdpos) hcmp
        · refine Or.inr ⟨b, l1, l2 ++ [c], ?_, hpos, by simp [hsplit], hbefore, ?_⟩
          · simp [bestStep_eq, not_le.mpr hc, hcmp]
          · intro d hd hdpos
            rcases List.mem_append.mp hd with hd | hd
            · exact hafter d hd hdpos
            · simp only [List.mem_singleton] at hd
              exact hd ▸ not_lt.mp hcmp

/-- A selected contour is a member of the list and has positive area. -/
lemma best_some_mem_pos {contours : List Contour} {w h : Int} {b : Contour}
    (hb : best_external_contour contours w h = some b) :
    b ∈ contours ∧ 0 < contourArea b := by
  unfold best_external_contour at hb
  rcases foldl_best_spec w h contours with ⟨heq, _⟩ | ⟨b0, l1, l2, heq, hpos, hsplit, _, _⟩
  · rw [heq] at hb
    exact absurd hb (by simp)
  · rw [heq] at hb
    simp only [Option.some.injEq] at hb
    subst hb
    exact ⟨by simp [hsplit], hpos⟩

/-- An empty contour list selects nothing. -/
lemma best_nil (w h : Int) : best_external_contour [] w h = none := rfl

/-- Length of a numpy slice whose endpoints already lie inside the axis. -/
lemma npSliceLen_of_bounds {n a b : Int} (ha : 0 ≤ a) (hab : a ≤ b) (hb : b ≤ n) :
    npSliceLen n a b = b - a := by
  unfold npSliceLen npClamp
  split_ifs <;> omega

/-- A successful whole-image core run returns exactly the bounding
rectangle of the selected contour. -/
lemma core_ok_shape {W H : Int} {cs : List Contour} {ma : ℚ} {wk : Bool} {m : Box}
    (hok : extract_main_object_core W H cs ma wk = Except.ok m) :
    ∃ b, best_external_contour cs W H = some b ∧ m = boundingRect b := by
  simp only [extract_main_object_core] at hok
  split at hok
  · exact Except.noConfusion hok
  · split at hok
    · exact Except.noConfusion hok
    · rename_i b hb
      split at hok
      · exact Except.noConfusion hok
      · split at hok
        · exact Except.noConfusion hok
        · split at hok
          · exact Except.noConfusion hok
          · exact ⟨b, hb, (Except.ok.inj hok).symm⟩

/-- A successful whole-image core run returns a box inside the image,
with positive extents, provided the contour points are in bounds. -/
lemma core_ok_bounds {W H : Int} {cs : List Contour} {ma : ℚ} {wk : Bool} {m : Box}
    (hin : ∀ c ∈ cs, ∀ p ∈ c, 0 ≤ p.1 ∧ p.1 < W ∧ 0 ≤ p.2 ∧ p.2 < H)
    (hok : extract_main_object_core W H cs ma wk = Except.ok m) :
    0 ≤ m.x ∧ 0 ≤ m.y ∧ 1 ≤ m.w ∧ 1 ≤ m.h ∧ m.x + m.w ≤ W ∧ m.y + m.h ≤ H := by
  obtain ⟨b, hb, hm⟩ := core_ok_shape hok
  obtain ⟨hmem, hpos⟩ := best_some_mem_pos hb
  have hbd := boundingRect_bounds W H (area_pos_ne_nil hpos) (hin b hmem)
  rw [hm]
  exact hbd

/-- guardedContoursOf only ever reports in-bounds contours. -/
lemma guarded_inbounds : InBounds guardedContoursOf := by
  intro img c hc p hp
  simp only [guardedContoursOf, List.mem_filter] at hc
  exact of_decide_eq_true hc.2 p hp

/-! Claim theorems. -/

/-- C2: the contour selector scores each positive-area contour by its
enclosed area, dampened by the factor 0.6 exactly when its bounding box
comes within 2 pixels of the image border; it returns none exactly when
no contour has positive area, and otherwise returns the first contour in
encounter order attaining the maximum score (every earlier positive-area
contour scores strictly less, every later one at most as much). -/
theorem selector_characterization (contours : List Contour) (w h : Int) :
    (best_external_contour contours w h = none ↔
        ∀ c ∈ contours, contourArea c ≤ 0) ∧
    (∀ c, scoreOf w h c =
        if touches_border (boundingRect c) w h 2 then contourArea c * (3 / 5)
        else contourArea c) ∧
    (∀ b, best_external_contour contours w h = some b →
        0 < contourArea b ∧
        ∃ l1 l2, contours = l1 ++ b :: l2 ∧
          (∀ c ∈ l1, 0 < contourArea c → scoreOf w h c < scoreOf w h b) ∧
          (∀ c ∈ l2, 0 < contourArea c → scoreOf w h c ≤ scoreOf w h b)) := by
  refine ⟨⟨?_, ?_⟩, fun c => rfl, ?_⟩
  · intro hnone c hc
    rcases foldl_best_spec w h contours with ⟨_, hall⟩ | ⟨b0, l1, l2, heq, _, _, _, _⟩
    · exact hall c hc
    · unfold best_external_contour at hnone
      rw [heq] at hnone
      exact absurd hnone (by simp)
  · intro hall
    rcases foldl_best_spec w h contours with ⟨heq, _⟩ | ⟨b0, l1, l2, heq, hpos, hsplit, _, _⟩
    · unfold best_external_contour
      rw [heq]
    · have hmem : b0 ∈ contours := by simp [hsplit]
      exact absurd (hall b0 hmem) (not_le.mpr hpos)
  · intro b hb
    rcases foldl_best_spec w h contours with ⟨heq, _⟩ | ⟨b0, l1, l2, heq, hpos, hsplit, hbef, haft⟩
    · unfold best_external_contour at hb
      rw [heq] at hb
      exact absurd hb (by simp)
    · unfold best_external_contour at hb
      rw [heq] at hb
      simp only [Option.some.injEq] at hb
      subst hb
      exact ⟨hpos, l1, l2, hsplit, hbef, haft⟩

/-- Witness for C2 at a concrete list: the selected contour of the
singleton list [sqC] has positive area. -/
theorem selector_characterization_witness : 0 < contourArea sqC :=
  ((selector_characterization [sqC] 100 100).2.2 sqC
    (by norm_num [best_external_contour, bestStep, contourArea, shoelace,
      shoelaceFrom, cross2, boundingRect, touches_border, sqC])).1

/-- C7: of two equal-area positive contours, one border-touching and one
not, the selector picks the non-border-touching one in either encounter
order. -/
theorem border_penalty_preference (c1 c2 : Contour) (w h : Int)
    (hpos : 0 < contourArea c1) (harea : contourArea c1 = contourArea c2)
    (ht2 : touches_border (boundingRect c2) w h 2 = true)
    (ht1 : touches_border (boundingRect c1) w h 2 = false) :
    best_external_contour [c1, c2] w h = some c1 ∧
    best_external_contour [c2, c1] w h = some c1 := by
  have hpos2 : 0 < contourArea c2 := harea ▸ hpos
  have hs1 : scoreOf w h c1 = contourArea c1 := by simp [scoreOf, ht1]
  have hs2 : scoreOf w h c2 = contourArea c1 * (3 / 5) := by
    simp [scoreOf, ht2, ← harea]
  have hlt : contourArea c1 * (3 / 5) < contourArea c1 := by linarith
  have hm1 : ¬ contourArea c1 ≤ 0 := not_le.mpr hpos
  have hm2 : ¬ contourArea c2 ≤ 0 := not_le.mpr hpos2
  have hn1 : (-1 : ℚ) < contourArea c1 := by linarith
  have hn2 : (-1 : ℚ) < contourArea c1 * (3 / 5) := by linarith
  have hno : ¬ contourArea c1 < contourArea c1 * (3 / 5) := not_lt.mpr hlt.le
  constructor <;>
    simp [best_external_contour, bestStep_eq, hs1, hs2, hm1, hm2, hn1, hn2, hno, hlt]

/-- Witness for C7: the interior square beats the border-glued square of
equal area on a 20 by 20 grid, in both encounter orders. -/
theorem border_penalty_preference_witness :
    best_external_contour [innerSq, borderSq] 20 20 = some innerSq ∧
    best_external_contour [borderSq, innerSq] 20 20 = some innerSq :=
  border_penalty_preference innerSq borderSq 20 20
    (by norm_num [contourArea, shoelace, shoelaceFrom, cross2, innerSq])
    (by norm_num [contourArea, shoelace, shoelaceFrom, cross2, innerSq, borderSq])
    (by norm_num [touches_border, boundingRect, borderSq])
    (by norm_num [touches_border, boundingRect, innerSq])

/-- C3: once a best contour is selected, the whole-image extraction fails
with the too-small error exactly when the area of its bounding rectangle
is strictly below min_area_ratio times the image area; otherwise the
pipeline continues past the gate. -/
theorem area_gate_spec (W H : Int) (contours : List Contour) (ma : ℚ)
    (wk : Bool) (b : Contour)
    (hb : best_external_contour contours W H = some b) :
    (((boundingRect b).w * (boundingRect b).h : Int) : ℚ) <
        ma * ((W * H : Int) : ℚ) ↔
      extract_main_object_core W H contours ma wk =
        Except.error "Detected object is too small; likely noise" := by
  have hne : contours ≠ [] := by
    intro h0
    rw [h0, best_nil] at hb
    exact Option.noConfusion hb
  have hie : contours.isEmpty = false := by
    cases contours with
    | nil => exact absurd rfl hne
    | cons c cs => rfl
  constructor
  · intro hlt
    simp only [extract_main_object_core, hie, Bool.false_eq_true, if_false, hb]
    rw [if_pos hlt]
  · intro herr
    by_contra hnlt
    simp only [extract_main_object_core, hie, Bool.false_eq_true, if_false, hb] at herr
    rw [if_neg hnlt] at herr
    split at herr
    · exact absurd (Except.error.inj herr) (by decide)
    · split at herr
      · exact absurd (Except.error.inj herr) (by decide)
      · exact Except.noConfusion herr

/-- Witness for C3: a 2 by 2 square on a 100 by 100 canvas is below the
default 0.0025 gate and the extraction reports the too-small error. -/
theorem area_gate_spec_witness :
    extract_main_object_core 100 100 [tinySq] (1 / 400) true =
      Except.error "Detected object is too small; likely noise" :=
  (area_gate_spec 100 100 [tinySq] (1 / 400) true tinySq
      (by norm_num [best_external_contour, bestStep, contourArea, shoelace,
        shoelaceFrom, cross2, boundingRect, touches_border, tinySq])).mp
    (by norm_num [boundingRect, tinySq])

/-- C8: the whole-image entry point signals its four failure kinds with
four pairwise distinct error values, each of which actually occurs. -/
theorem distinct_failure_errors :
    (∃ W H cs ma wk, extract_main_object_core W H cs ma wk =
        Except.error "No contours found") ∧
    (∃ W H cs ma wk, extract_main_object_core W H cs ma wk =
        Except.error "No suitable contour found") ∧
    (∃ W H cs ma wk, extract_main_object_core W H cs ma wk =
        Except.error "Detected object is too small; likely noise") ∧
    (∃ W H cs ma wk, extract_main_object_core W H cs ma wk =
        Except.error "Failed to write sprite PNG") ∧
    (("No contours found" : String) ≠ "No suitable contour found" ∧
      ("No contours found" : String) ≠ "Detected object is too small; likely noise" ∧
      ("No contours found" : String) ≠ "Failed to write sprite PNG" ∧
      ("No suitable contour found" : String) ≠ "Detected object is too small; likely noise" ∧
      ("No suitable contour found" : String) ≠ "Failed to write sprite PNG" ∧
      ("Detected object is too small; likely noise" : String) ≠ "Failed to write sprite PNG") := by
  refine ⟨⟨1, 1, [], 1, true, rfl⟩,
    ⟨1, 1, [[(0, 0)]], 1, true, ?_⟩,
    ⟨100, 100, [tinySq], 1 / 400, true, ?_⟩,
    ⟨100, 100, [sqC], 1 / 400, false, ?_⟩,
    by decide, by decide, by decide, by decide, by decide, by decide⟩
  · norm_num [extract_main_object_core, best_external_contour, bestStep,
      contourArea, shoelace, shoelaceFrom, cross2]
  · norm_num [extract_main_object_core, best_external_contour, bestStep,
      contourArea, shoelace, shoelaceFrom, cross2, boundingRect,
      touches_border, tinySq]
  · norm_num [extract_main_object_core, best_external_contour, bestStep,
      contourArea, shoelace, shoelaceFrom, cross2, boundingRect,
      touches_border, npSliceLen, npClamp, sqC]

/-- C10: with in-bounds contour reports, any selected contour has a
bounding rectangle of positive extents lying inside the image, and the
empty-crop error branch of the whole-image extraction is unreachable. -/
theorem empty_crop_unreachable (W H : Int) (contours : List Contour)
    (ma : ℚ) (wk : Bool)
    (hin : ∀ c ∈ contours, ∀ p ∈ c, 0 ≤ p.1 ∧ p.1 < W ∧ 0 ≤ p.2 ∧ p.2 < H) :
    (∀ b, best_external_contour contours W H = some b →
        0 ≤ (boundingRect b).x ∧ 0 ≤ (boundingRect b).y ∧
          1 ≤ (boundingRect b).w ∧ 1 ≤ (boundingRect b).h ∧
          (boundingRect b).x + (boundingRect b).w ≤ W ∧
          (boundingRect b).y + (boundingRect b).h ≤ H) ∧
    extract_main_object_core W H contours ma wk ≠
      Except.error "Empty crop after contour extraction" := by
  have hrect : ∀ b, best_external_contour contours W H = some b →
      0 ≤ (boundingRect b).x ∧ 0 ≤ (boundingRect b).y ∧
        1 ≤ (boundingRect b).w ∧ 1 ≤ (boundingRect b).h ∧
        (boundingRect b).x + (boundingRect b).w ≤ W ∧
        (boundingRect b).y + (boundingRect b).h ≤ H := by
    intro b hb
    obtain ⟨hmem, hpos⟩ := best_some_mem_pos hb
    exact boundingRect_bounds W H (area_pos_ne_nil hpos) (hin b hmem)
  refine ⟨hrect, ?_⟩
  intro herr
  simp only [extract_main_object_core] at herr
  split at herr
  · exact absurd (Except.error.inj herr) (by decide)
  · split at herr
    · exact absurd (Except.error.inj herr) (by decide)
    · rename_i b hb
      split at herr
      · exact absurd (Except.error.inj herr) (by decide)
      · split at herr
        · rename_i hcond
          obtain ⟨hx0, hy0, hw1, hh1, hxw, hyh⟩ := hrect b hb
          rw [npSliceLen_of_bounds hy0 (by omega) hyh,
            npSliceLen_of_bounds hx0 (by omega) hxw] at hcond
          omega
        · split at herr
          · exact absurd (Except.error.inj herr) (by decide)
          · exact Except.noConfusion herr

/-- Witness for C10 at a concrete in-bounds contour list. -/
theorem empty_crop_unreachable_witness :
    extract_main_object_core 100 100 [sqC] (1 / 400) true ≠
      Except.error "Empty crop after contour extraction" :=
  (empty_crop_unreachable 100 100 [sqC] (1 / 400) true (by decide)).2

/-- C1 counterexample: with an existing decodable image, a positive input
box and a non-degenerate clamped intersection, the region-scoped call can
still propagate an error that is neither a decode error nor a degenerate
box: when the inner pipeline fails and the fallback imwrite returns
false, the source raises the component write RuntimeError. -/
theorem component_write_failure_escapes :
    (0 : Int) < 2 ∧
    max 0 (min (img3.W - 1) 0) <
      max 0 (min img3.W (max 0 (min (img3.W - 1) 0) + 2)) ∧
    max 0 (min (img3.H - 1) 0) <
      max 0 (min img3.H (max 0 (min (img3.H - 1) 0) + 2)) ∧
    extract_component_core true (some img3) noContoursOf true false 0 0 2 2 (1 / 400) =
      Except.error "Failed to write component PNG" := by
  refine ⟨by norm_num, by norm_num [img3], by norm_num [img3], ?_⟩
  norm_num [extract_component_core, extract_component_run,
    extract_main_object_core, noContoursOf, img3, cropImage]

/-- C1 (amended): with an existing decodable image, a positive input box
and a non-degenerate clamped intersection, the region-scoped call either
returns a sprite (every inner pipeline failure is replaced by the
fallback) or propagates the fallback write error; no other error
escapes. -/
theorem component_total_modulo_fallback_write (img : BGRImage)
    (cf : BGRImage → List Contour) (iw fw : Bool) (bx b_y bw bh : Int) (ma : ℚ)
    (hbw : 0 < bw) (hbh : 0 < bh)
    (hndx : max 0 (min (img.W - 1) bx) <
      max 0 (min img.W (max 0 (min (img.W - 1) bx) + bw)))
    (hndy : max 0 (min (img.H - 1) b_y) <
      max 0 (min img.H (max 0 (min (img.H - 1) b_y) + bh))) :
    (∃ m, extract_component_core true (some img) cf iw fw bx b_y bw bh ma =
        Except.ok m) ∨
    extract_component_core true (some img) cf iw fw bx b_y bw bh ma =
      Except.error "Failed to write component PNG" := by
  simp only [extract_component_core, extract_component_run]
  split
  · rename_i hcontra
    exact Bool.noConfusion hcontra
  · split
    · rename_i hcontra
      omega
    · split
      · rename_i hcontra
        omega
      · split
        · exact Or.inl ⟨_, rfl⟩
        · split
          · exact Or.inl ⟨_, rfl⟩
          · exact Or.inr rfl

/-- Witness for the amended C1 at a concrete blank region. -/
theorem component_total_modulo_fallback_write_witness :
    (∃ m, extract_component_core true (some img3) noContoursOf true true 0 0 2 2 (1 / 400) =
        Except.ok m) ∨
    extract_component_core true (some img3) noContoursOf true true 0 0 2 2 (1 / 400) =
      Except.error "Failed to write component PNG" :=
  component_total_modulo_fallback_write img3 noContoursOf true true 0 0 2 2 (1 / 400)
    (by norm_num) (by norm_num) (by norm_num [img3]) (by norm_num [img3])

/-- C4: when the pre-checks pass and the inner whole-image pipeline fails
on the cropped sub-image, the fallback returns exactly the clamped
rectangle as the bounding box and writes the raw crop of that rectangle
with the alpha channel 255 at every pixel. -/
theorem fallback_result_spec (img : BGRImage) (cf : BGRImage → List Contour)
    (iw : Bool) (bx b_y bw bh : Int) (ma : ℚ) (x0 y0 x1 y1 : Int) (e : String)
    (hx0 : x0 = max 0 (min (img.W - 1) bx))
    (hy0 : y0 = max 0 (min (img.H - 1) b_y))
    (hx1 : x1 = max 0 (min img.W (x0 + bw)))
    (hy1 : y1 = max 0 (min img.H (y0 + bh)))
    (hbw : 0 < bw) (hbh : 0 < bh) (hndx : x0 < x1) (hndy : y0 < y1)
    (hinner : extract_main_object_core (cropImage img x0 y0 x1 y1).W
        (cropImage img x0 y0 x1 y1).H (cf (cropImage img x0 y0 x1 y1)) ma iw =
        Except.error e) :
    (extract_component_run true (some img) cf iw true bx b_y bw bh ma).result =
        Except.ok ⟨x0, y0, x1 - x0, y1 - y0⟩ ∧
    (extract_component_run true (some img) cf iw true bx b_y bw bh ma).fallbackWritten =
        some (component_fallback_rgba (cropImage img x0 y0 x1 y1)) ∧
    ∀ i j : Int, (component_fallback_rgba (cropImage img x0 y0 x1 y1)).px i j =
        (img.px (x0 + i) (y0 + j), 255) := by
  subst hx0 hy0 hx1 hy1
  refine ⟨?_, ?_, fun i j => rfl⟩ <;>
  · simp only [extract_component_run]
    split
    · rename_i hcontra
      exact Bool.noConfusion hcontra
    · split
      · rename_i hcontra
        omega
      · split
        · rename_i hcontra
          omega
        · split
          · rename_i m0 heq
            rw [hinner] at heq
            exact Except.noConfusion heq
          · rfl

/-- Witness for C4: the blank 2 by 2 region of the white canvas falls
back to the clamped rectangle with a fully opaque raw crop. -/
theorem fallback_result_spec_witness :
    (extract_component_run true (some img3) noContoursOf true true 0 0 2 2 (1 / 400)).result =
        Except.ok ⟨0, 0, 2 - 0, 2 - 0⟩ ∧
    (extract_component_run true (some img3) noContoursOf true true 0 0 2 2 (1 / 400)).fallbackWritten =
        some (component_fallback_rgba (cropImage img3 0 0 2 2)) ∧
    ∀ i j : Int, (component_fallback_rgba (cropImage img3 0 0 2 2)).px i j =
        (img3.px (0 + i) (0 + j), 255) :=
  fallback_result_spec img3 noContoursOf true 0 0 2 2 (1 / 400) 0 0 2 2
    "No contours found"
    (by norm_num [img3]) (by norm_num [img3]) (by norm_num [img3])
    (by norm_num [img3]) (by norm_num) (by norm_num) (by norm_num) (by norm_num)
    (by norm_num [extract_main_object_core, noContoursOf])

/-- C5: when the pre-checks pass and the inner whole-image pipeline
succeeds on the cropped sub-image, the region-scoped call returns the
inner box translated by the clamped origin, and that translated box lies
entirely within the clamped sub-rectangle. -/
theorem success_translation_spec (img : BGRImage) (cf : BGRImage → List Contour)
    (iw fw : Bool) (bx b_y bw bh : Int) (ma : ℚ) (x0 y0 x1 y1 : Int) (m0 : Box)
    (hcf : InBounds cf)
    (hx0 : x0 = max 0 (min (img.W - 1) bx))
    (hy0 : y0 = max 0 (min (img.H - 1) b_y))
    (hx1 : x1 = max 0 (min img.W (x0 + bw)))
    (hy1 : y1 = max 0 (min img.H (y0 + bh)))
    (hbw : 0 < bw) (hbh : 0 < bh) (hndx : x0 < x1) (hndy : y0 < y1)
    (hinner : extract_main_object_core (cropImage img x0 y0 x1 y1).W
        (cropImage img x0 y0 x1 y1).H (cf (cropImage img x0 y0 x1 y1)) ma iw =
        Except.ok m0) :
    extract_component_core true (some img) cf iw fw bx b_y bw bh ma =
        Except.ok ⟨x0 + m0.x, y0 + m0.y, m0.w, m0.h⟩ ∧
    x0 ≤ x0 + m0.x ∧ x0 + m0.x + m0.w ≤ x1 ∧
    y0 ≤ y0 + m0.y ∧ y0 + m0.y + m0.h ≤ y1 := by
  have hbounds := core_ok_bounds (hcf (cropImage img x0 y0 x1 y1)) hinner
  simp only [cropImage] at hbounds
  obtain ⟨hbx, hby, hbw1, hbh1, hbxw, hbyh⟩ := hbounds
  subst hx0 hy0 hx1 hy1
  refine ⟨?_, by omega, by omega, by omega, by omega⟩
  simp only [extract_component_core, extract_component_run]
  split
  · rename_i hcontra
    exact Bool.noConfusion hcontra
  · split
    · rename_i hcontra
      omega
    · split
      · rename_i hcontra
        omega
      · split
        · rename_i m1 heq
          rw [hinner] at heq
          rw [Except.ok.inj heq]
        · rename_i e heq
          rw [hinner] at heq
          exact Except.noConfusion heq

/-- Witness for C5: region (50,50,100,100) of the 200 by 200 canvas with
the guarded square detector translates the inner box by the origin. -/
theorem success_translation_spec_witness :
    extract_component_core true (some img200) guardedContoursOf true true
        50 50 100 100 (1 / 400) =
      Except.ok ⟨50 + (Box.mk 10 10 71 71).x, 50 + (Box.mk 10 10 71 71).y,
        (Box.mk 10 10 71 71).w, (Box.mk 10 10 71 71).h⟩ ∧
    (50 : Int) ≤ 50 + (Box.mk 10 10 71 71).x ∧
    50 + (Box.mk 10 10 71 71).x + (Box.mk 10 10 71 71).w ≤ 150 ∧
    (50 : Int) ≤ 50 + (Box.mk 10 10 71 71).y ∧
    50 + (Box.mk 10 10 71 71).y + (Box.mk 10 10 71 71).h ≤ 150 :=
  success_translation_spec img200 guardedContoursOf true true 50 50 100 100
    (1 / 400) 50 50 150 150 ⟨10, 10, 71, 71⟩ guarded_inbounds
    (by norm_num [img200]) (by norm_num [img200]) (by norm_num [img200])
    (by norm_num [img200]) (by norm_num) (by norm_num) (by norm_num) (by norm_num)
    (by norm_num [extract_main_object_core, best_external_contour, bestStep,
      contourArea, shoelace, shoelaceFrom, cross2, boundingRect, touches_border,
      npSliceLen, npClamp, guardedContoursOf, cropImage, List.filter, sqC, img200])

/-- C6: every successful extraction, by either entry point, returns a box
contained in the image it is reported against, provided the raster stage
only reports in-bounds contours. -/
theorem bbox_containment (cf : BGRImage → List Contour) (hcf : InBounds cf) :
    (∀ (img : BGRImage) (ma : ℚ) (wk : Bool) (m : Box),
        extract_main_object_model true (some img) cf ma wk = Except.ok m →
        0 ≤ m.x ∧ 0 ≤ m.y ∧ m.x + m.w ≤ img.W ∧ m.y + m.h ≤ img.H) ∧
    (∀ (img : BGRImage) (iw fw : Bool) (bx b_y bw bh : Int) (ma : ℚ) (m : Box),
        extract_component_core true (some img) cf iw fw bx b_y bw bh ma =
          Except.ok m →
        0 ≤ m.x ∧ 0 ≤ m.y ∧ m.x + m.w ≤ img.W ∧ m.y + m.h ≤ img.H) := by
  constructor
  · intro img ma wk m hok
    have hcore : extract_main_object_core img.W img.H (cf img) ma wk = Except.ok m := by
      simpa [extract_main_object_model] using hok
    have h := core_ok_bounds (hcf img) hcore
    exact ⟨h.1, h.2.1, h.2.2.2.2.1, h.2.2.2.2.2⟩
  · intro img iw fw bx b_y bw bh ma m hok
    simp only [extract_component_core, extract_component_run] at hok
    split at hok
    · exact Except.noConfusion hok
    · split at hok
      · exact Except.noConfusion hok
      · split at hok
        · exact Except.noConfusion hok
        · rename_i hclamp
          split at hok
          · rename_i m0 hinner
            have h := core_ok_bounds (hcf _) hinner
            simp only [cropImage] at h
            obtain ⟨hbx, hby, hbw1, hbh1, hbxw, hbyh⟩ := h
            dsimp only at hok
            obtain rfl := (Except.ok.inj hok)
            dsimp only
            omega
          · split at hok
            · dsimp only at hok
              obtain rfl := (Except.ok.inj hok)
              dsimp only
              omega
            · exact Except.noConfusion hok

/-- Witness for C6: the whole-image entry point on the 100 by 100 canvas
with the guarded square detector returns a contained box. -/
theorem bbox_containment_witness :
    0 ≤ (Box.mk 10 10 71 71).x ∧ 0 ≤ (Box.mk 10 10 71 71).y ∧
      (Box.mk 10 10 71 71).x + (Box.mk 10 10 71 71).w ≤ img100.W ∧
      (Box.mk 10 10 71 71).y + (Box.mk 10 10 71 71).h ≤ img100.H :=
  (bbox_containment guardedContoursOf guarded_inbounds).1 img100 (1 / 400) true
    ⟨10, 10, 71, 71⟩
    (by norm_num [extract_main_object_model, extract_main_object_core,
      best_external_contour, bestStep, contourArea, shoelace, shoelaceFrom,
      cross2, boundingRect, touches_border, npSliceLen, npClamp,
      guardedContoursOf, List.filter, sqC, img100])

/-- C9: on every path of the region-scoped extractor that creates the
temporary working image, removal of the temporary file is performed
before the call completes. -/
theorem temp_cleanup_all_paths (fe : Bool) (decoded : Option BGRImage)
    (cf : BGRImage → List Contour) (iw fw : Bool) (bx b_y bw bh : Int) (ma : ℚ)
    (hreach : FSEvent.mkstempCreate ∈
      (extract_component_run fe decoded cf iw fw bx b_y bw bh ma).events) :
    FSEvent.removeTempAttempt ∈
      (extract_component_run fe decoded cf iw fw bx b_y bw bh ma).events := by
  revert hreach
  simp only [extract_component_run]
  split
  · intro hreach
    simp at hreach
  · split
    · intro hreach
      simp at hreach
    · split
      · intro hreach
        simp at hreach
      · split
        · intro hreach
          simp at hreach
        · split
          · intro _
            simp
          · split
            · intro _
              simp
            · intro _
              simp

/-- Witness for C9: a run that reaches temp creation also removes it. -/
theorem temp_cleanup_all_paths_witness :
    FSEvent.removeTempAttempt ∈
      (extract_component_run true (some img3) noContoursOf true true 0 0 2 2 (1 / 400)).events :=
  temp_cleanup_all_paths true (some img3) noContoursOf true true 0 0 2 2 (1 / 400)
    (by norm_num [extract_component_run, extract_main_object_core,
      noContoursOf, img3, cropImage])

end ObjectExtract
